import Mathlib

/-!
Shallow embedding of the dependabot repository's core logic
(`src/dependabot/dependencies/version_checker.py`,
`src/dependabot/github/scraper.py`, `src/dependabot/github/pr.py`,
`src/dependabot/github/oauth.py`) together with theorems checking the
natural-language specification against it.

Strings are modelled as lists of characters (`Str`); newline handling is
modelled for the `'\n'` separator.  Network and the Python standard
library's JSON codec are modelled as explicit function parameters; the
`packaging.version` comparison is modelled for dotted numeric versions
(a string that is not a dotted numeric version falls into the code's
`InvalidVersion` branch).
-/

namespace Dependabot

/-- Strings as character lists. -/
abbrev Str := List Char

/-- Python `str.strip` whitespace class (no newline appears inside a split line). -/
def isWs (c : Char) : Bool :=
  c = ' ' || c = '\t' || c = '\n' || c = '\r' || c = '\x0b' || c = '\x0c'

/-- Python `str.strip()`: drop whitespace from both ends. -/
def trim (s : Str) : Str :=
  ((s.dropWhile isWs).reverse.dropWhile isWs).reverse

/-- Does the string contain the substring `==`? (Python `"==" in s`.) -/
def hasEqEq : Str → Bool
  | '=' :: '=' :: _ => true
  | _ :: rest => hasEqEq rest
  | [] => false

/-- Python `s.split("==")`: split on non-overlapping occurrences of `==`,
left to right. -/
def splitEqEq : Str → List Str
  | '=' :: '=' :: rest => [] :: splitEqEq rest
  | c :: rest =>
    match splitEqEq rest with
    | x :: xs => (c :: x) :: xs
    | [] => [[c]]
  | [] => [[]]

/-- The characters strictly after the first occurrence of `==`. -/
def afterEqEq : Str → Str
  | '=' :: '=' :: rest => rest
  | _ :: rest => afterEqEq rest
  | [] => []

/-- The characters strictly before the first occurrence of `==`. -/
def upToEqEq : Str → Str
  | '=' :: '=' :: _ => []
  | c :: rest => c :: upToEqEq rest
  | [] => []

/-- Python `str.splitlines` for `'\n'`-separated text: the final empty
piece produced by a trailing newline is dropped. -/
def splitNl : Str → List Str
  | [] => [[]]
  | '\n' :: rest => [] :: splitNl rest
  | c :: rest =>
    match splitNl rest with
    | x :: xs => (c :: x) :: xs
    | [] => [[c]]

/-- `content.splitlines()` (modelled for the `'\n'` separator). -/
def splitLines (s : Str) : List Str :=
  if s = [] then []
  else if s.getLast? = some '\n' then (splitNl s).dropLast
  else splitNl s

/-- Python `"\n".join(lines)`. -/
def joinNl : List Str → Str
  | [] => []
  | [l] => l
  | l :: rest => l ++ '\n' :: joinNl rest

/-- Decimal digit test. -/
def isDigitCh (c : Char) : Bool := '0' ≤ c && c ≤ '9'

/-- Value of one decimal digit. -/
def digitVal (c : Char) : Nat := c.toNat - '0'.toNat

/-- Parse a non-empty run of digits as a number. -/
def digitsVal (s : Str) : Nat := s.foldl (fun a c => a * 10 + digitVal c) 0

/-- Parse a dotted numeric version (`1.2.0`, `1.9`, `2`) into its numeric
components; any other string is rejected (it would raise
`InvalidVersion` in the modelled fragment of `packaging.version`). -/
def parseDotted (s : Str) : Option (List Nat) :=
  let parts := s.splitOn '.'
  if s ≠ [] ∧ parts.all (fun p => p ≠ [] && p.all isDigitCh) then
    some (parts.map digitsVal)
  else none

/-- Strict version precedence on numeric component lists, padding the
shorter list with zeros (`packaging`: release `1.0` equals `1.0.0`). -/
def verLt : List Nat → List Nat → Bool
  | [], bs => bs.any (fun b => decide (0 < b))
  | _ :: _, [] => false
  | a :: as, b :: bs =>
    if a < b then true else if b < a then false else verLt as bs

theorem verLt_irrefl : ∀ v : List Nat, verLt v v = false
  | [] => by simp [verLt]
  | _ :: as => by simp [verLt, verLt_irrefl as]

/-- The `dep_type` strings used by the code: `"npm"`, `"pip"`, or anything
else (the fallback branch of `check_package_version`). -/
inductive DepType
  | npm
  | pip
  | other
deriving DecidableEq, Repr

/-- The sentinel `"ANY"`. -/
def anyStr : Str := "ANY".data

/-- Does the string contain the substring `||`? -/
def hasPipePipe : Str → Bool
  | '|' :: '|' :: _ => true
  | _ :: rest => hasPipePipe rest
  | [] => false

/-- `re.match(r"[\^~]?([0-9]+\.[0-9]+\.[0-9]+.*)", spec)`, returning the
captured group: after an optional `^`/`~` prefix the spec must start with
`digits.digits.digits`; the capture extends greedily to the end of the
line (`.` does not cross a newline). -/
def npmPinnedMatch (spec : Str) : Option Str :=
  let g : Str → Option Str := fun t =>
    let d1 := t.takeWhile isDigitCh
    match d1, t.drop d1.length with
    | _ :: _, '.' :: r2 =>
      let d2 := r2.takeWhile isDigitCh
      match d2, r2.drop d2.length with
      | _ :: _, '.' :: r4 =>
        let d3 := r4.takeWhile isDigitCh
        if d3 = [] then none
        else
          some (d1 ++ '.' :: d2 ++ '.' :: d3 ++
            (r4.drop d3.length).takeWhile (fun c => c ≠ '\n'))
      | _, _ => none
    | _, _ => none
  match spec with
  | '^' :: t => g t
  | '~' :: t => g t
  | t => g t

/-- Lines 80–87 of `version_checker.py`: the npm branch computing
`parsed_spec_version_str`. -/
def classifyNpm (spec : Str) : Option Str :=
  match npmPinnedMatch spec with
  | some v => some v
  | none =>
    if spec ≠ [] ∧
        ¬('>' ∈ spec ∨ '<' ∈ spec ∨ '*' ∈ spec ∨ 'x' ∈ spec ∨ 'X' ∈ spec ∨
          hasPipePipe spec = true) then
      some spec
    else none

/-- Lines 89–95 of `version_checker.py`: the pip branch computing
`parsed_spec_version_str` (`version_spec_from_req.split("==")[1].strip()`;
the guarded `IndexError` can never fire since a string containing `==`
splits into at least two pieces). -/
def classifyPip (spec : Str) : Option Str :=
  if hasEqEq spec then some (trim (((splitEqEq spec).get? 1).getD [])) else none

/-- `parsed_spec_version_str` as computed for the effective `dep_type`. -/
def classifySpec (dep : DepType) (spec : Str) : Option Str :=
  match dep with
  | .npm => classifyNpm spec
  | .pip => classifyPip spec
  | .other => none

/-- Lines 74–116 of `version_checker.py`: the decision taken once
`latest_version_str` is known and truthy.  The `version.parse` calls are
modelled by `parseDotted` (a parse failure takes the `InvalidVersion`
branch). -/
def addCurrent (spec : Str) (dep : DepType) (latest : Str) : Bool × Str :=
  -- `add_to_table` and `current_version_for_table` after lines 74–111.
  let current0 : Str := if spec = [] then anyStr else spec
  let elseB : Bool × Str :=
    (if latest ≠ spec ∧ spec ≠ anyStr then true
     else if spec = anyStr then true else false, current0)
  match classifySpec dep spec with
  | some p =>
    if p = [] then elseB
    else
      match parseDotted p, parseDotted latest with
      | some a, some b => (verLt a b, p)
      | _, _ => (decide (latest ≠ spec), current0)
  | none => elseB

/-- The final guard (lines 113–116): return the candidate only when the
decision fired and the latest version differs from the displayed current
value. -/
def decideUpdate (pkg spec : Str) (dep : DepType) (latest : Str) :
    Option (Str × Str × Str) :=
  let st := addCurrent spec dep latest
  if st.1 = true ∧ latest ≠ st.2 then some (pkg, st.2, latest) else none

/-- Python truthiness of an optional string. -/
def truthy : Option Str → Bool
  | some (_ :: _) => true
  | _ => false

/-- Lines 58–69 of `version_checker.py`: pick the registry for the given
`dep_type`, with the fallback (unknown type) trying PyPI first and then
npm, correcting the inferred type to npm only when the npm lookup is
truthy. -/
def resolveLatest (pipReg npmReg : Str → Option Str) (pkg : Str) (dep : DepType) :
    Option Str × DepType :=
  match dep with
  | .npm => (npmReg pkg, .npm)
  | .pip => (pipReg pkg, .pip)
  | .other =>
    let l1 := pipReg pkg
    if truthy l1 then (l1, .other)
    else
      let l2 := npmReg pkg
      if truthy l2 then (l2, .npm) else (l2, .other)

/-- `check_package_version` (lines 56–116), with the two registry lookups
abstracted as functions (`None` models a failed lookup). -/
def check_package_version (pipReg npmReg : Str → Option Str) (pkg spec : Str)
    (dep : DepType) : Option (Str × Str × Str) :=
  let r := resolveLatest pipReg npmReg pkg dep
  match r.1 with
  | some l => if l = [] then none else decideUpdate pkg spec r.2 l
  | none => none

/-! ### JSON values

The Python standard library's `json` codec is external to the repository;
the functions below model it: `Json` is the value shape, `jparse` a
concrete parser used to instantiate theorems, while the repository
functions take the codec as an explicit parameter. -/

/-- JSON values; numbers are kept as their raw text. -/
inductive Json
  | jnull
  | jbool (b : Bool)
  | jnum (raw : Str)
  | jstr (s : Str)
  | jarr (xs : List Json)
  | jobj (fields : List (Str × Json))

/-- Minimal escape decoding inside JSON string literals. -/
def escChar : Char → Char
  | 'n' => '\n'
  | 't' => '\t'
  | 'r' => '\r'
  | c => c

/-- Parse the body of a JSON string literal (after the opening quote),
returning the decoded text and the input after the closing quote. -/
def parseStringBody : Str → Option (Str × Str)
  | [] => none
  | '"' :: rest => some ([], rest)
  | '\\' :: rest =>
    match rest with
    | [] => none
    | c :: rest2 => (parseStringBody rest2).map (fun p => (escChar c :: p.1, p.2))
  | c :: rest => (parseStringBody rest).map (fun p => (c :: p.1, p.2))

/-- Characters that may appear in a JSON number token. -/
def numChar (c : Char) : Bool :=
  isDigitCh c || c = '-' || c = '+' || c = '.' || c = 'e' || c = 'E'

mutual

/-- Fueled recursive-descent JSON value parser. -/
def jparseVal : Nat → Str → Option (Json × Str)
  | 0, _ => none
  | fuel + 1, s =>
    match s.dropWhile isWs with
    | '{' :: rest => (jparseObjItems fuel (rest.dropWhile isWs)).map
        (fun p => (Json.jobj p.1, p.2))
    | '[' :: rest => (jparseArrItems fuel (rest.dropWhile isWs)).map
        (fun p => (Json.jarr p.1, p.2))
    | '"' :: rest => (parseStringBody rest).map (fun p => (Json.jstr p.1, p.2))
    | 't' :: 'r' :: 'u' :: 'e' :: rest => some (Json.jbool true, rest)
    | 'f' :: 'a' :: 'l' :: 's' :: 'e' :: rest => some (Json.jbool false, rest)
    | 'n' :: 'u' :: 'l' :: 'l' :: rest => some (Json.jnull, rest)
    | c :: rest =>
      if numChar c then
        some (Json.jnum ((c :: rest).takeWhile numChar),
          (c :: rest).dropWhile numChar)
      else none
    | [] => none

/-- Members of a JSON object, positioned after `{` (whitespace skipped). -/
def jparseObjItems : Nat → Str → Option (List (Str × Json) × Str)
  | 0, _ => none
  | fuel + 1, s =>
    match s with
    | '}' :: rest => some ([], rest)
    | '"' :: rest =>
      match parseStringBody rest with
      | none => none
      | some (key, r1) =>
        match r1.dropWhile isWs with
        | ':' :: r2 =>
          match jparseVal fuel (r2.dropWhile isWs) with
          | none => none
          | some (v, r3) =>
            match r3.dropWhile isWs with
            | ',' :: r4 => (jparseObjItems fuel (r4.dropWhile isWs)).map
                (fun p => ((key, v) :: p.1, p.2))
            | '}' :: r4 => some ([(key, v)], r4)
            | _ => none
        | _ => none
    | _ => none

/-- Elements of a JSON array, positioned after `[` (whitespace skipped). -/
def jparseArrItems : Nat → Str → Option (List Json × Str)
  | 0, _ => none
  | fuel + 1, s =>
    match s with
    | ']' :: rest => some ([], rest)
    | _ =>
      match jparseVal fuel s with
      | none => none
      | some (v, r1) =>
        match r1.dropWhile isWs with
        | ',' :: r2 => (jparseArrItems fuel (r2.dropWhile isWs)).map
            (fun p => (v :: p.1, p.2))
        | ']' :: r2 => some ([v], r2)
        | _ => none

end

/-- `json.loads`, modelled: parse one value and require only whitespace
after it. -/
def jparse (s : Str) : Option Json :=
  match jparseVal (s.length + 2) s with
  | some (v, rest) => if rest.dropWhile isWs = [] then some v else none
  | none => none

/-- Escape a string for serialization. -/
def jescape (s : Str) : Str :=
  (s.map (fun c =>
    if c = '"' ∨ c = '\\' then ['\\', c]
    else if c = '\n' then ['\\', 'n']
    else [c])).flatten

/-- `n` spaces. -/
def spacesN (n : Nat) : Str := List.replicate n ' '

/-- Join pieces with the `",\n"` member separator of indented
`json.dumps` output. -/
def joinCommaNl : List Str → Str
  | [] => []
  | [l] => l
  | l :: rest => l ++ ',' :: '\n' :: joinCommaNl rest

/-- `json.dumps(·, indent=2)`, modelled (fueled; the fuel only needs to
exceed the nesting depth). -/
def jdumpVal : Nat → Nat → Json → Str
  | 0, _, _ => []
  | fuel + 1, ind, j =>
    match j with
    | .jnull => "null".data
    | .jbool true => "true".data
    | .jbool false => "false".data
    | .jnum raw => raw
    | .jstr s => '"' :: jescape s ++ ['"']
    | .jarr [] => "[]".data
    | .jarr xs =>
      '[' :: '\n' ::
        joinCommaNl (xs.map (fun x => spacesN (ind + 2) ++ jdumpVal fuel (ind + 2) x))
          ++ '\n' :: spacesN ind ++ [']']
    | .jobj [] => "{}".data
    | .jobj fs =>
      let fieldStrs := fs.map (fun p =>
        spacesN (ind + 2) ++ '"' :: jescape p.1 ++ '"' :: ':' :: ' ' ::
          jdumpVal fuel (ind + 2) p.2)
      '{' :: '\n' :: joinCommaNl fieldStrs ++ '\n' :: spacesN ind ++ ['}']

/-- A concrete serializer usable to instantiate the `json.dumps`
parameter. -/
def jdumps (j : Json) : Str := jdumpVal 1000 0 j

/-! ### `github/scraper.py` -/

/-- String rendering Python's `str()` applies to a JSON-decoded value
(`str(version_spec)` in the scraper); containers are not exercised by
any manifest of interest and render as empty. -/
def jToPyStr : Json → Str
  | .jstr s => s
  | .jnum raw => raw
  | .jbool true => "True".data
  | .jbool false => "False".data
  | .jnull => "None".data
  | _ => []

/-- Character class of the leading package token,
`[a-zA-Z0-9._-]`. -/
def nameChar (c : Char) : Bool :=
  ('a' ≤ c && c ≤ 'z') || ('A' ≤ c && c ≤ 'Z') || isDigitCh c ||
    c = '.' || c = '_' || c = '-'

/-- Character class of the bracketed extras, `[a-zA-Z0-9_,.-]`. -/
def brktChar (c : Char) : Bool :=
  ('a' ≤ c && c ≤ 'z') || ('A' ≤ c && c ≤ 'Z') || isDigitCh c ||
    c = '_' || c = ',' || c = '.' || c = '-'

/-- Leading characters of the version-spec group, `[<>=!~]`. -/
def opChar (c : Char) : Bool :=
  c = '<' || c = '>' || c = '=' || c = '!' || c = '~'

/-- `re.match(r"^\s*([a-zA-Z0-9._-]+(?:\[[a-zA-Z0-9_,.-]+\])?)\s*([<>=!~]=?.*)?", line)`:
returns `(group(1), group(2) or "")`, or `none` when the match fails
(possible only when the leading token is empty). -/
def pipLineMatch (line : Str) : Option (Str × Str) :=
  let s0 := line.dropWhile isWs
  let name := s0.takeWhile nameChar
  if name = [] then none
  else
    let r1 := s0.drop name.length
    let withB : Str × Str :=
      match r1 with
      | '[' :: rest =>
        let inner := rest.takeWhile brktChar
        match inner, rest.drop inner.length with
        | _ :: _, ']' :: r => (name ++ '[' :: inner ++ [']'], r)
        | _, _ => (name, r1)
      | _ => (name, r1)
    let r3 := withB.2.dropWhile isWs
    let spec : Str :=
      match r3 with
      | c :: _ => if opChar c then r3.takeWhile (fun ch => ch ≠ '\n') else []
      | [] => []
    some (withB.1, spec)

/-- Lines 88–96 of `scraper.py`: extract `(package_name, version_spec)`
pairs from a requirements-style manifest, skipping blank and comment
lines and lines the regex rejects. -/
def parsePipManifest (content : Str) : List (Str × Str) :=
  (splitLines content).filterMap (fun lineContent =>
    let line := trim lineContent
    if line = [] then none
    else if line.head? = some '#' then none
    else
      match pipLineMatch line with
      | some (n, sp) => some (n, trim sp)
      | none => none)

/-- Lines 74–78 of `scraper.py`: flatten the `dependencies` and
`devDependencies` object-valued sections of a decoded `package.json`. -/
def npmFlatten (j : Json) : List (Str × Str) :=
  match j with
  | .jobj fs =>
    (["dependencies".data, "devDependencies".data].map (fun k =>
      match (fs.reverse.find? (fun p => p.1 = k)).map (fun p => p.2) with
      | some (.jobj deps) => deps.map (fun p => (p.1, jToPyStr p.2))
      | _ => [])).flatten
  | _ => []

/-- Result of a successful scrape. -/
abbrev ScrapeResult := List (Str × Str) × DepType × Str

/-- The fixed branch search order. -/
def branchesToTry : List Str := ["main".data, "master".data]

/-- `"package.json"`. -/
def packageJsonPath : Str := "package.json".data

/-- `"requirements.txt"`. -/
def requirementsPath : Str := "requirements.txt".data

/-- `path.endswith("requirements.txt")`. -/
def endsWithReq (path : Str) : Bool := requirementsPath.isSuffixOf path

/-- The inner branch loop of `scrape_dependencies_from_github`
(lines 52–117) for one candidate file in scan mode (no path override):
a failed fetch, an unparseable `package.json`, or an empty `package.json`
moves on to the next branch; a fetched `requirements.txt` returns even
with an empty declaration list.  `fetch path branch = none` models a
non-200 response or a transport error. -/
def tryBranches (fetch : Str → Str → Option Str) (jp : Str → Option Json)
    (path : Str) (dt : DepType) : List Str → Option ScrapeResult
  | [] => none
  | b :: bs =>
    match fetch path b with
    | none => tryBranches fetch jp path dt bs
    | some content =>
      match dt with
      | .npm =>
        match jp content with
        | none => tryBranches fetch jp path dt bs
        | some j =>
          let pkgs := npmFlatten j
          if pkgs = [] then tryBranches fetch jp path dt bs
          else some (pkgs, .npm, path)
      | .pip =>
        let pkgs := parsePipManifest content
        if pkgs ≠ [] then some (pkgs, .pip, path)
        else if endsWithReq path then some ([], .pip, path)
        else tryBranches fetch jp path dt bs
      | .other => tryBranches fetch jp path dt bs

/-- `scrape_dependencies_from_github` in scan mode (no
`file_path_override`): probe `package.json` as npm, then
`requirements.txt` as pip, each across the branch order. -/
def scrapeScan (fetch : Str → Str → Option Str) (jp : Str → Option Json) :
    Option ScrapeResult :=
  match tryBranches fetch jp packageJsonPath .npm branchesToTry with
  | some r => some r
  | none => tryBranches fetch jp requirementsPath .pip branchesToTry

/-- Observable characterization of the scan (used to state the corrected
claim): the first branch whose `package.json` fetches, parses and
flattens to a non-empty list wins; otherwise the first branch whose
`requirements.txt` fetches wins with whatever (possibly empty)
declaration list it parses to; otherwise the scan fails. -/
def scanSpec (fetch : Str → Str → Option Str) (jp : Str → Option Json) :
    Option ScrapeResult :=
  match (branchesToTry.filterMap (fun b =>
      (fetch packageJsonPath b).bind (fun content =>
        (jp content).bind (fun j =>
          if npmFlatten j = [] then none
          else some ((npmFlatten j, DepType.npm, packageJsonPath) : ScrapeResult))))).head? with
  | some r => some r
  | none =>
    ((branchesToTry.filterMap (fun b => fetch requirementsPath b)).head?).map
      (fun content => (parsePipManifest content, DepType.pip, requirementsPath))

/-! ### `github/pr.py` -/

/-- `updates_map = {pkg: latest for pkg, _, latest in updates_to_apply}`,
queried by key: a later entry for the same package overwrites an earlier
one. -/
def updLookup (updates : List (Str × Str × Str)) (n : Str) : Option Str :=
  ((updates.map (fun u => (u.1, u.2.2))).reverse.find? (fun p => p.1 = n)).map
    (fun p => p.2)

/-- Lines 28–41 of `pr.py`: rewrite one line of a pip manifest. -/
def rewriteLine (updates : List (Str × Str × Str)) (line : Str) : Str :=
  let stripped := trim line
  if stripped = [] then line
  else if stripped.head? = some '#' then line
  else
    match pipLineMatch stripped with
    | some (n, _) =>
      match updLookup updates n with
      | some latest => n ++ '=' :: '=' :: latest
      | none => line
    | none => line

/-- Lines 44–53 of `pr.py`: overwrite every candidate present in the
`dependencies`/`devDependencies` sections with `"^latest"`. -/
def npmApplyUpdates (updates : List (Str × Str × Str)) (j : Json) : Json :=
  match j with
  | .jobj fs =>
    .jobj (fs.map (fun kv =>
      if kv.1 = "dependencies".data ∨ kv.1 = "devDependencies".data then
        match kv.2 with
        | .jobj deps =>
          (kv.1, Json.jobj (deps.map (fun dv =>
            match updLookup updates dv.1 with
            | some latest => (dv.1, Json.jstr ('^' :: latest))
            | none => dv)))
        | _ => kv
      else kv))
  | other => other

/-- `generate_new_dependency_file_content` (lines 17–58), with the JSON
codec passed in (`jp` = `json.loads` returning `none` on
`JSONDecodeError`, `jd` = `json.dumps(·, indent=2)`). -/
def generate_new_dependency_file_content (jp : Str → Option Json)
    (jd : Json → Str) (orig : Str) (dt : DepType)
    (updates : List (Str × Str × Str)) : Str :=
  if updates = [] then orig
  else
    match dt with
    | .pip => joinNl ((splitLines orig).map (rewriteLine updates))
    | .npm =>
      match jp orig with
      | none => orig
      | some j => jd (npmApplyUpdates updates j)
    | .other => orig

/-- Remote mutations attempted by `create_github_pr`. -/
inductive RemoteAction
  | createBranch
  | commitFile (content : Str)
  | openPR
deriving DecidableEq, Repr

/-- The sequence of remote mutations `create_github_pr` (lines 60–137)
performs on its happy path: nothing when the candidate list is empty;
the branch ref is created (line 82) before the new content is computed
(line 89) and compared against the original (line 91), so an unchanged
file still creates the branch but neither commits nor opens a pull
request. -/
def create_github_pr_actions (jp : Str → Option Json) (jd : Json → Str)
    (orig : Str) (dt : DepType) (updates : List (Str × Str × Str)) :
    List RemoteAction :=
  if updates = [] then []
  else
    let newContent := generate_new_dependency_file_content jp jd orig dt updates
    if newContent = orig then [RemoteAction.createBranch]
    else [RemoteAction.createBranch, RemoteAction.commitFile newContent,
      RemoteAction.openPR]

/-- Membership tests on the action trace. -/
def hasCommit : List RemoteAction → Bool
  | [] => false
  | RemoteAction.commitFile _ :: _ => true
  | _ :: rest => hasCommit rest

/-- Is a pull-request creation present in the trace? -/
def hasOpenPR : List RemoteAction → Bool
  | [] => false
  | RemoteAction.openPR :: _ => true
  | _ :: rest => hasOpenPR rest

/-- Is a branch creation present in the trace? -/
def hasCreateBranch : List RemoteAction → Bool
  | [] => false
  | RemoteAction.createBranch :: _ => true
  | _ :: rest => hasCreateBranch rest

/-! ### The update planner (`check_updates_parallel`, `cli.py` 55–69) -/

/-- Submit one `check_package_version` task per scraped declaration and
collect the non-`None` results (modelled sequentially; the thread pool
imposes no ordering guarantee, so theorems only use membership). -/
def planUpdates (pipReg npmReg : Str → Option Str)
    (decls : List (Str × Str)) (dt : DepType) : List (Str × Str × Str) :=
  decls.filterMap (fun d => check_package_version pipReg npmReg d.1 d.2 dt)

/-! ### `github/oauth.py` -/

/-- Outcome of one token poll (`token_response`): a structured error
code, an access token, or a transport/decoding failure (the two
`continue` arms). -/
inductive TokenResp
  | pending
  | slowDown
  | expiredToken
  | accessDenied
  | otherError (code : Str)
  | accessToken (tok : Str)
  | transportFail
deriving DecidableEq, Repr

/-- Terminal outcome of the polling loop; only `authorized` carries a
token. -/
inductive SessionOutcome
  | authorized (tok : Str)
  | denied
  | expired
  | errorCode (code : Str)
deriving DecidableEq, Repr

/-- The polling loop of `get_github_oauth_token` (lines 58–102):
at each iteration the wall clock is checked first
(`time.time() - start_time > expires_in`), then the loop sleeps
`interval` seconds and polls; `slow_down` adds the fixed increment 5 to
the interval.  `elapsed` is the time since `start_time`, `k` indexes the
poll responses, and `fuel` bounds the number of iterations examined
(`none` = still polling after `fuel` iterations). -/
def pollLoop (resp : Nat → TokenResp) (expiresIn : Nat) :
    Nat → Nat → Nat → Nat → Option SessionOutcome
  | 0, _, _, _ => none
  | fuel + 1, elapsed, itv, k =>
    if expiresIn < elapsed then some .expired
    else
      match resp k with
      | .pending => pollLoop resp expiresIn fuel (elapsed + itv) itv (k + 1)
      | .slowDown => pollLoop resp expiresIn fuel (elapsed + itv) (itv + 5) (k + 1)
      | .expiredToken => some .expired
      | .accessDenied => some .denied
      | .otherError c => some (.errorCode c)
      | .accessToken t => some (.authorized t)
      | .transportFail => pollLoop resp expiresIn fuel (elapsed + itv) itv (k + 1)

/-- Session state as observable from outside: still awaiting the user,
or finished with a terminal outcome (the Python function has returned;
nothing changes it afterwards). -/
inductive SessState
  | awaitingUser (elapsed itv : Nat)
  | finished (o : SessionOutcome)
deriving DecidableEq, Repr

/-- One observable transition of the session per poll response. -/
def sessStep (expiresIn : Nat) : SessState → TokenResp → SessState
  | .finished o, _ => .finished o
  | .awaitingUser e i, r =>
    if expiresIn < e then .finished .expired
    else
      match r with
      | .pending => .awaitingUser (e + i) i
      | .slowDown => .awaitingUser (e + i) (i + 5)
      | .expiredToken => .finished .expired
      | .accessDenied => .finished .denied
      | .otherError c => .finished (.errorCode c)
      | .accessToken t => .finished (.authorized t)
      | .transportFail => .awaitingUser (e + i) i

/-! ### The registry cache (`version_checker.py` lines 14–34) -/

/-- `CACHE_EXPIRY` from `utils/constants.py`. -/
def CACHE_EXPIRY : Nat := 3600

/-- Look a package up in `VERSION_CACHE`. -/
def cacheFind (c : List (Str × Str × Nat)) (pkg : Str) : Option (Str × Nat) :=
  (c.find? (fun e => e.1 = pkg)).map (fun e => e.2)

/-- `VERSION_CACHE[package_name] = (latest_version, current_time)`:
dictionary assignment replaces an existing entry, else appends. -/
def cacheStore (c : List (Str × Str × Nat)) (pkg v : Str) (now : Nat) :
    List (Str × Str × Nat) :=
  if (c.find? (fun e => e.1 = pkg)).isSome then
    c.map (fun e => if e.1 = pkg then (pkg, v, now) else e)
  else c ++ [(pkg, v, now)]

/-- The body of `get_latest_version` (lines 17–34), network abstracted:
`net` is the outcome of `requests.get` (`some v` = HTTP 200 carrying
version `v`; `none` = non-200 status or raised exception).  Returns the
result, the cache afterwards, and whether the network was used. -/
def getLatestVersionBody (cache : List (Str × Str × Nat)) (pkg : Str)
    (now : Nat) (net : Option Str) :
    Option Str × List (Str × Str × Nat) × Bool :=
  let fetch : Option Str × List (Str × Str × Nat) × Bool :=
    match net with
    | some v => (some v, cacheStore cache pkg v now, true)
    | none => (none, cache, true)
  match cacheFind cache pkg with
  | some (v, ts) => if now - ts < CACHE_EXPIRY then (some v, cache, false) else fetch
  | none => fetch

/-- Process-wide state of the decorated function: the `@lru_cache`
memo table (argument ↦ returned value) plus `VERSION_CACHE`. -/
structure RegistryState where
  memo : List (Str × Option Str)
  cache : List (Str × Str × Nat)
deriving DecidableEq, Repr

/-- `get_latest_version` as actually invoked: the `@lru_cache(maxsize=1000)`
wrapper returns a memoized result for a repeated argument without
executing the body at all. -/
def get_latest_version (st : RegistryState) (pkg : Str) (now : Nat)
    (net : Option Str) : Option Str × RegistryState × Bool :=
  match (st.memo.find? (fun e => e.1 = pkg)).map (fun e => e.2) with
  | some r => (r, st, false)
  | none =>
    let b := getLatestVersionBody st.cache pkg now net
    (b.1, ⟨st.memo ++ [(pkg, b.1)], b.2.1⟩, b.2.2)

/-- A manifest line already carries a candidate's target version in
canonical `name==latest` form wherever the line's leading package token
is among the candidates (vacuously true for blank, comment, unmatched,
or non-parsing lines). -/
def canonicalFor (updates : List (Str × Str × Str)) (l : Str) : Bool :=
  match pipLineMatch (trim l) with
  | some (n, _) =>
    match updLookup updates n with
    | some v => decide (l = n ++ '=' :: '=' :: v)
    | none => true
  | none => true

/-! ### Helper lemmas -/

theorem listMapSelf {α} (f : α → α) :
    ∀ l : List α, (∀ x ∈ l, f x = x) → l.map f = l
  | [], _ => rfl
  | a :: l, h => by
    rw [List.map_cons, h a (List.mem_cons_self a l),
      listMapSelf f l (fun x hx => h x (List.mem_cons_of_mem a hx))]

theorem parseDotted_ne_nil {s : Str} {v : List Nat}
    (h : parseDotted s = some v) : s ≠ [] := by
  unfold parseDotted at h
  simp only [] at h
  split at h
  · next hc => exact hc.1
  · exact absurd h (by simp)

/-- Whatever `create_github_pr` does when the regenerated content equals
the original: nothing for an empty candidate list, only the branch
creation otherwise. -/
theorem actions_unchanged (jp : Str → Option Json) (jd : Json → Str)
    (orig : Str) (dt : DepType) (updates : List (Str × Str × Str))
    (h : generate_new_dependency_file_content jp jd orig dt updates = orig) :
    create_github_pr_actions jp jd orig dt updates =
      if updates = [] then [] else [RemoteAction.createBranch] := by
  unfold create_github_pr_actions
  by_cases hu : updates = []
  · simp [hu]
  · simp [hu, h]

/-- All rewrites fix their line when every candidate-matched line is
already canonical. -/
theorem rewriteLine_fixed (updates : List (Str × Str × Str)) (l : Str)
    (h : canonicalFor updates l = true) : rewriteLine updates l = l := by
  unfold rewriteLine
  simp only []
  by_cases h0 : trim l = []
  · simp [h0]
  · rw [if_neg h0]
    by_cases hH : (trim l).head? = some '#'
    · rw [if_pos hH]
    · rw [if_neg hH]
      unfold canonicalFor at h
      rcases hM : pipLineMatch (trim l) with _ | ⟨n, sp⟩
      · rfl
      · rw [hM] at h
        have h3 : (match updLookup updates n with
          | some v => decide (l = n ++ '=' :: '=' :: v)
          | none => true) = true := h
        rcases hU : updLookup updates n with _ | v
        · have h2 : (match updLookup updates n with
            | some latest => n ++ '=' :: '=' :: latest
            | none => l) = l := by rw [hU]
          exact h2
        · rw [hU] at h3
          have h4 : (match updLookup updates n with
            | some latest => n ++ '=' :: '=' :: latest
            | none => l) = n ++ '=' :: '=' :: v := by rw [hU]
          exact h4.trans (of_decide_eq_true h3).symm

theorem splitEqEq_ne_nil (s : Str) : splitEqEq s ≠ [] := by
  induction s using splitEqEq.induct with
  | case1 rest ih => simp [splitEqEq]
  | case2 => simp only [splitEqEq] ; split <;> simp
  | case3 => simp only [splitEqEq] ; split <;> simp
  | case4 => simp [splitEqEq]

theorem splitEqEq_head (s : Str) : (splitEqEq s).head? = some (upToEqEq s) := by
  induction s using splitEqEq.induct with
  | case1 rest ih => simp [splitEqEq, upToEqEq]
  | case2 => simp_all [splitEqEq, upToEqEq]
  | case3 => simp_all [splitEqEq, upToEqEq]
  | case4 => simp [splitEqEq, upToEqEq]

theorem splitEqEq_get1 (s : Str) (h : hasEqEq s = true) :
    (splitEqEq s).get? 1 = some (upToEqEq (afterEqEq s)) := by
  induction s using splitEqEq.induct with
  | case1 rest ih =>
    simp only [splitEqEq, afterEqEq]
    rcases hsp : splitEqEq rest with _ | ⟨x, xs⟩
    · exact absurd hsp (splitEqEq_ne_nil rest)
    · have hh := splitEqEq_head rest
      rw [hsp] at hh
      simpa using hh
  | case2 =>
    rename_i c rest hcond x xs hsp ih
    have hrest : hasEqEq rest = true := by
      have : hasEqEq (c :: rest) = hasEqEq rest := by
        simp only [hasEqEq]
      rw [← this]; exact h
    simp only [splitEqEq, afterEqEq, hsp]
    have := ih hrest
    rw [hsp] at this
    simpa using this
  | case3 =>
    rename_i c rest hcond hsp ih
    exact absurd hsp (splitEqEq_ne_nil rest)
  | case4 => simp [hasEqEq] at h

theorem hasEqEq_iff (s : Str) :
    hasEqEq s = true ↔ ∃ pre post, s = pre ++ '=' :: '=' :: post := by
  induction s using hasEqEq.induct with
  | case1 rest =>
    simp only [hasEqEq, true_iff]
    exact ⟨[], rest, rfl⟩
  | case2 =>
    rename_i c rest hcond ih
    have hstep : hasEqEq (c :: rest) = hasEqEq rest := by simp only [hasEqEq]
    rw [hstep, ih]
    constructor
    · rintro ⟨pre, post, hp⟩
      exact ⟨c :: pre, post, by rw [hp]; rfl⟩
    · rintro ⟨pre, post, hp⟩
      rcases pre with _ | ⟨p, pre'⟩
      · rw [List.nil_append] at hp
        injection hp with h1 h2
        exact (hcond post h1 h2).elim
      · rw [List.cons_append] at hp
        injection hp with h1 h2
        exact ⟨pre', post, h2⟩
  | case3 =>
    simp [hasEqEq]

/-- Counterexample for C2: on a spec containing two `==` separators the
code extracts `split("==")[1]` — the segment BETWEEN the first and second
occurrence — not the whole substring after the first occurrence. -/
theorem classifyPip_substring_after_first_cex :
    classifyPip ("==1.0==2.0".data) = some ("1.0".data) ∧
    trim (afterEqEq ("==1.0==2.0".data)) = "1.0==2.0".data ∧
    some ("1.0".data) ≠ some (trim (afterEqEq ("==1.0==2.0".data))) := by
  decide

/-- C2 (amended): a pip spec is classified as pinned iff it contains
`==`, and the extracted pinned version is the trimmed segment between
the first and the second occurrence of `==` (to the end of the string if
there is no second occurrence). -/
theorem classifyPip_iff_and_extract (s : Str) :
    ((classifyPip s).isSome = true ↔ ∃ pre post, s = pre ++ '=' :: '=' :: post) ∧
    (∀ v, classifyPip s = some v → v = trim (upToEqEq (afterEqEq s))) := by
  constructor
  · rw [← hasEqEq_iff]
    unfold classifyPip
    by_cases h : hasEqEq s = true <;> simp [h]
  · intro v hv
    unfold classifyPip at hv
    by_cases h : hasEqEq s = true
    · rw [if_pos h, Option.some.injEq] at hv
      rw [← hv, splitEqEq_get1 s h]
      rfl
    · rw [if_neg h] at hv
      exact absurd hv (by simp)

/-- Witness for C2's amended theorem at `"a==b"`. -/
theorem classifyPip_iff_and_extract_witness :
    (∃ pre post, ("a==b".data : Str) = pre ++ '=' :: '=' :: post) ∧
    ("b".data : Str) = trim (upToEqEq (afterEqEq ("a==b".data))) :=
  ⟨(classifyPip_iff_and_extract ("a==b".data)).1.mp (by decide),
   (classifyPip_iff_and_extract ("a==b".data)).2 ("b".data) (by decide)⟩

/-- `addCurrent` on a pinned spec whose extracted version and latest both
parse as dotted numeric versions compares them under version
precedence. -/
theorem addCurrent_pinned (spec : Str) (dep : DepType) (l v : Str)
    (pv pl : List Nat) (hv : classifySpec dep spec = some v)
    (hpv : parseDotted v = some pv) (hpl : parseDotted l = some pl) :
    addCurrent spec dep l = (verLt pv pl, v) := by
  have hvne : v ≠ [] := parseDotted_ne_nil hpv
  unfold addCurrent
  simp only []
  rw [hv]
  simp only []
  rw [if_neg hvne, hpv, hpl]

/-- C1: for a declaration classified as pinned to `v`, with the registry
lookup succeeding with `latest = l`, where both `v` and `l` parse as
dotted numeric versions, `check_package_version` emits a candidate iff
`l` is strictly newer than `v` under version precedence; in particular
an equal version emits nothing. -/
theorem check_pinned_update_iff_newer (pipReg npmReg : Str → Option Str)
    (pkg spec : Str) (dep : DepType) (l v : Str) (pv pl : List Nat)
    (hreg : resolveLatest pipReg npmReg pkg dep = (some l, dep))
    (hv : classifySpec dep spec = some v)
    (hpv : parseDotted v = some pv) (hpl : parseDotted l = some pl) :
    check_package_version pipReg npmReg pkg spec dep =
      (if verLt pv pl = true then some (pkg, v, l) else none) ∧
    ((check_package_version pipReg npmReg pkg spec dep).isSome = true ↔
      verLt pv pl = true) ∧
    (pv = pl → check_package_version pipReg npmReg pkg spec dep = none) := by
  have hlne : l ≠ [] := parseDotted_ne_nil hpl
  have haC := addCurrent_pinned spec dep l v pv pl hv hpv hpl
  have hne : verLt pv pl = true → l ≠ v := by
    intro hgt he
    rw [he, hpv] at hpl
    rw [Option.some.injEq] at hpl
    rw [hpl] at hgt
    rw [verLt_irrefl] at hgt
    exact Bool.false_ne_true hgt
  have hmain : check_package_version pipReg npmReg pkg spec dep =
      if verLt pv pl = true then some (pkg, v, l) else none := by
    unfold check_package_version
    rw [hreg]
    simp only []
    rw [if_neg hlne]
    unfold decideUpdate
    simp only []
    rw [haC]
    by_cases hgt : verLt pv pl = true
    · rw [if_pos hgt, if_pos (⟨hgt, hne hgt⟩ : verLt pv pl = true ∧ l ≠ v)]
    · rw [if_neg hgt, if_neg (fun hc : verLt pv pl = true ∧ l ≠ v => hgt hc.1)]
  refine ⟨hmain, ?_, ?_⟩
  · rw [hmain]
    by_cases hgt : verLt pv pl = true <;> simp [hgt]
  · intro hpe
    rw [hmain, hpe, verLt_irrefl]
    simp

/-- Witness for C1: `latest=2.0.0` vs pinned `1.9.5` emits; equal
versions do not. -/
theorem check_pinned_update_iff_newer_witness :
    (check_package_version (fun _ => some ("2.0.0".data)) (fun _ => none)
      ("foo".data) ("==1.9.5".data) .pip).isSome = true ∧
    check_package_version (fun _ => some ("1.9.5".data)) (fun _ => none)
      ("foo".data) ("==1.9.5".data) .pip = none :=
  ⟨((check_pinned_update_iff_newer (fun _ => some ("2.0.0".data)) (fun _ => none)
      ("foo".data) ("==1.9.5".data) .pip ("2.0.0".data) ("1.9.5".data)
      [1, 9, 5] [2, 0, 0] (by decide) (by decide) (by decide) (by decide)).2.1).mpr
      (by decide),
   (check_pinned_update_iff_newer (fun _ => some ("1.9.5".data)) (fun _ => none)
      ("foo".data) ("==1.9.5".data) .pip ("1.9.5".data) ("1.9.5".data)
      [1, 9, 5] [1, 9, 5] (by decide) (by decide) (by decide) (by decide)).2.2
      rfl⟩

/-- C9: `check_package_version` never returns a candidate whose latest
version equals the displayed current value (the final guard on lines
113–115). -/
theorem check_never_emits_equal_versions
    (pipReg npmReg : Str → Option Str) (pkg spec : Str) (dep : DepType)
    (p cur lat : Str)
    (h : check_package_version pipReg npmReg pkg spec dep = some (p, cur, lat)) :
    lat ≠ cur := by
  unfold check_package_version at h
  simp only [] at h
  rcases hE : (resolveLatest pipReg npmReg pkg dep).1 with _ | l
  · rw [hE] at h
    exact absurd h (by simp)
  · rw [hE] at h
    have h1 : (if l = [] then none
        else decideUpdate pkg spec (resolveLatest pipReg npmReg pkg dep).2 l) =
        some (p, cur, lat) := h
    by_cases hl : l = []
    · rw [if_pos hl] at h1; exact absurd h1 (by simp)
    · rw [if_neg hl] at h1
      unfold decideUpdate at h1
      simp only [] at h1
      split at h1
      · next hc =>
        rw [Option.some.injEq] at h1
        have hlat : lat = l := (congrArg (fun t => t.2.2) h1).symm
        have hcur : cur = (addCurrent spec (resolveLatest pipReg npmReg pkg dep).2 l).2 :=
          (congrArg (fun t => t.2.1) h1).symm
        rw [hlat, hcur]
        exact hc.2
      · exact absurd h1 (by simp)

/-- Witness for C9: the theorem applied to a concrete emitted candidate. -/
theorem check_never_emits_equal_versions_witness :
    ("1.2.0".data : Str) ≠ "1.0.0".data :=
  check_never_emits_equal_versions
    (fun _ => some ("1.2.0".data)) (fun _ => none)
    ("foo".data) ("==1.0.0".data) .pip ("foo".data) ("1.0.0".data) ("1.2.0".data)
    (by decide)

/-- C10: an npm patch request whose original content fails JSON parsing
returns the original unchanged, and the pipeline neither commits nor
opens a pull request. -/
theorem npm_patch_invalid_json_noop (jp : Str → Option Json) (jd : Json → Str)
    (orig : Str) (updates : List (Str × Str × Str)) (h : jp orig = none) :
    generate_new_dependency_file_content jp jd orig .npm updates = orig ∧
    hasCommit (create_github_pr_actions jp jd orig .npm updates) = false ∧
    hasOpenPR (create_github_pr_actions jp jd orig .npm updates) = false := by
  have hg : generate_new_dependency_file_content jp jd orig .npm updates = orig := by
    unfold generate_new_dependency_file_content
    by_cases hu : updates = []
    · simp [hu]
    · simp [hu, h]
  refine ⟨hg, ?_, ?_⟩ <;> rw [actions_unchanged _ _ _ _ _ hg] <;>
    by_cases hu : updates = [] <;> simp [hu, hasCommit, hasOpenPR]

/-- Witness for C10: a concrete non-JSON manifest. -/
theorem npm_patch_invalid_json_noop_witness :
    generate_new_dependency_file_content jparse jdumps ("this is not json".data) .npm
      [("left-pad".data, "1.0.0".data, "1.3.0".data)] = "this is not json".data ∧
    hasCommit (create_github_pr_actions jparse jdumps ("this is not json".data) .npm
      [("left-pad".data, "1.0.0".data, "1.3.0".data)]) = false ∧
    hasOpenPR (create_github_pr_actions jparse jdumps ("this is not json".data) .npm
      [("left-pad".data, "1.0.0".data, "1.3.0".data)]) = false :=
  npm_patch_invalid_json_noop jparse jdumps ("this is not json".data)
    [("left-pad".data, "1.0.0".data, "1.3.0".data)] (by rfl)

theorem tryBranches_cons (fetch : Str → Str → Option Str)
    (jp : Str → Option Json) (path : Str) (dt : DepType) (b : Str)
    (bs : List Str) :
    tryBranches fetch jp path dt (b :: bs) =
      match fetch path b with
      | none => tryBranches fetch jp path dt bs
      | some content =>
        match dt with
        | .npm =>
          match jp content with
          | none => tryBranches fetch jp path dt bs
          | some j =>
            if npmFlatten j = [] then tryBranches fetch jp path dt bs
            else some (npmFlatten j, .npm, path)
        | .pip =>
          if parsePipManifest content ≠ [] then
            some (parsePipManifest content, .pip, path)
          else if endsWithReq path then some ([], .pip, path)
          else tryBranches fetch jp path dt bs
        | .other => tryBranches fetch jp path dt bs := rfl

theorem tryBranches_npm_eq (fetch : Str → Str → Option Str)
    (jp : Str → Option Json) (path : Str) :
    ∀ bs : List Str, tryBranches fetch jp path .npm bs =
      (bs.filterMap (fun b => (fetch path b).bind (fun content =>
        (jp content).bind (fun j =>
          if npmFlatten j = [] then none
          else some ((npmFlatten j, DepType.npm, path) : ScrapeResult))))).head?
  | [] => rfl
  | b :: bs => by
    rw [tryBranches_cons]
    rcases hf : fetch path b with _ | content
    · simp only [hf, List.filterMap_cons, Option.none_bind]
      exact tryBranches_npm_eq fetch jp path bs
    · rcases hj : jp content with _ | j
      · simp only [hf, hj, List.filterMap_cons, Option.some_bind, Option.none_bind]
        exact tryBranches_npm_eq fetch jp path bs
      · by_cases hp : npmFlatten j = []
        · have hIH := tryBranches_npm_eq fetch jp path bs
          simp [hf, hj, hp, hIH]
        · simp [hf, hj, hp]

theorem tryBranches_pip_req_eq (fetch : Str → Str → Option Str)
    (jp : Str → Option Json) :
    ∀ bs : List Str, tryBranches fetch jp requirementsPath .pip bs =
      ((bs.filterMap (fun b => fetch requirementsPath b)).head?).map
        (fun content => ((parsePipManifest content, DepType.pip,
          requirementsPath) : ScrapeResult))
  | [] => rfl
  | b :: bs => by
    rw [tryBranches_cons]
    rcases hf : fetch requirementsPath b with _ | content
    · simp only [hf, List.filterMap_cons]
      exact tryBranches_pip_req_eq fetch jp bs
    · have hreq : endsWithReq requirementsPath = true := by decide
      by_cases hp : parsePipManifest content = []
      · simp [hf, hp, hreq]
      · simp [hf, hp]

/-- Counterexample for C4: `package.json` absent on both branches and a
fetched `requirements.txt` whose declaration list is empty — the claim
says this reports failure, but the scrape returns a SUCCESSFUL empty
result (lines 100–102 short-circuit for `requirements.txt`). -/
theorem scan_empty_requirements_success_cex :
    (let fetch : Str → Str → Option Str := fun p b =>
       if p = requirementsPath ∧ b = "main".data then
         some ("# pinned elsewhere\n".data)
       else none
     (∀ b ∈ branchesToTry, fetch packageJsonPath b = none) ∧
     parsePipManifest ("# pinned elsewhere\n".data) = [] ∧
     scrapeScan fetch jparse = some ([], DepType.pip, requirementsPath) ∧
     scrapeScan fetch jparse ≠ none) := by
  decide

/-- C4 (amended): with no explicit path the scraper probes the
ecosystem-B manifest first across the branch order — the first branch
whose `package.json` fetches, parses, and yields a non-empty declaration
list wins; otherwise the first branch whose `requirements.txt` fetches
wins with whatever declaration list it parses to, EVEN an empty one
(returned as an empty success); the scrape fails only when no
`package.json` probe yields non-empty declarations and `requirements.txt`
is absent on every branch. -/
theorem scrapeScan_eq_scanSpec (fetch : Str → Str → Option Str)
    (jp : Str → Option Json) : scrapeScan fetch jp = scanSpec fetch jp := by
  unfold scrapeScan scanSpec
  rw [tryBranches_npm_eq fetch jp packageJsonPath branchesToTry,
    tryBranches_pip_req_eq fetch jp branchesToTry]
  rfl

/-- Helper for C5: once every poll answers `slow_down`, the interval
keeps growing, so with enough fuel the elapsed clock passes the expiry
bound and the loop ends `Expired`. -/
theorem pollSlow_expired (expiresIn : Nat) :
    ∀ fuel elapsed itv k, 5 ≤ itv → 1 ≤ fuel → expiresIn + 2 ≤ fuel + elapsed →
      pollLoop (fun _ => TokenResp.slowDown) expiresIn fuel elapsed itv k =
        some SessionOutcome.expired
  | 0, _, _, _ => by
    intro _ h1 _
    exact absurd h1 (by omega)
  | fuel + 1, elapsed, itv, k => by
    intro h5 _ hsum
    unfold pollLoop
    by_cases hexp : expiresIn < elapsed
    · rw [if_pos hexp]
    · rw [if_neg hexp]
      simp only []
      exact pollSlow_expired expiresIn fuel (elapsed + itv) (itv + 5) (k + 1)
        (by omega) (by omega) (by omega)

/-- C5: a `slow_down` response adds the fixed increment 5 to the poll
interval and polling continues; a session answered only with
`slow_down` eventually passes `expires_at` and terminates `Expired`
(an outcome that carries no token); and after any terminal outcome the
session state absorbs every further response — it never returns to an
earlier state. -/
theorem oauth_slowdown_grows_then_expires :
    (∀ (resp : Nat → TokenResp) (expiresIn fuel elapsed itv k : Nat),
      resp k = TokenResp.slowDown → ¬(expiresIn < elapsed) →
      pollLoop resp expiresIn (fuel + 1) elapsed itv k =
        pollLoop resp expiresIn fuel (elapsed + itv) (itv + 5) (k + 1)) ∧
    (∀ expiresIn itv0 : Nat,
      pollLoop (fun _ => TokenResp.slowDown) expiresIn (expiresIn + 3) 0 itv0 0 =
        some SessionOutcome.expired) ∧
    (∀ (expiresIn : Nat) (o : SessionOutcome) (r : TokenResp),
      sessStep expiresIn (SessState.finished o) r = SessState.finished o) := by
  refine ⟨?_, ?_, ?_⟩
  · intro resp expiresIn fuel elapsed itv k h1 h2
    have hstep : pollLoop resp expiresIn (fuel + 1) elapsed itv k =
        if expiresIn < elapsed then some SessionOutcome.expired
        else
          match resp k with
          | .pending => pollLoop resp expiresIn fuel (elapsed + itv) itv (k + 1)
          | .slowDown => pollLoop resp expiresIn fuel (elapsed + itv) (itv + 5) (k + 1)
          | .expiredToken => some SessionOutcome.expired
          | .accessDenied => some SessionOutcome.denied
          | .otherError c => some (SessionOutcome.errorCode c)
          | .accessToken t => some (SessionOutcome.authorized t)
          | .transportFail => pollLoop resp expiresIn fuel (elapsed + itv) itv (k + 1) :=
      rfl
    rw [hstep, if_neg h2, h1]
  · intro expiresIn itv0
    unfold pollLoop
    rw [if_neg (by omega)]
    simp only []
    exact pollSlow_expired expiresIn (expiresIn + 2) (0 + itv0) (itv0 + 5) 1
      (by omega) (by omega) (by omega)
  · intro expiresIn o r
    rfl

/-- Witness for C5: one concrete `slow_down` step and one concrete
all-`slow_down` run. -/
theorem oauth_slowdown_grows_then_expires_witness :
    pollLoop (fun _ => TokenResp.slowDown) 30 5 0 5 0 =
      pollLoop (fun _ => TokenResp.slowDown) 30 4 (0 + 5) (5 + 5) 1 ∧
    pollLoop (fun _ => TokenResp.slowDown) 30 (30 + 3) 0 5 0 =
      some SessionOutcome.expired :=
  ⟨oauth_slowdown_grows_then_expires.1 (fun _ => TokenResp.slowDown) 30 4 0 5 0
      rfl (by decide),
   oauth_slowdown_grows_then_expires.2.1 30 5⟩

/-- Counterexample for C6: with a non-empty candidate list whose patch
leaves the content unchanged, `create_github_pr` has already created the
branch ref (line 82) before comparing contents (line 91), so "no branch
is created" fails. -/
theorem noop_content_still_creates_branch_cex :
    generate_new_dependency_file_content jparse jdumps ("foo==1.2.0".data) .pip
      [("foo".data, "1.2.0".data, "1.2.0".data)] = "foo==1.2.0".data ∧
    create_github_pr_actions jparse jdumps ("foo==1.2.0".data) .pip
      [("foo".data, "1.2.0".data, "1.2.0".data)] = [RemoteAction.createBranch] ∧
    hasCreateBranch (create_github_pr_actions jparse jdumps ("foo==1.2.0".data)
      .pip [("foo".data, "1.2.0".data, "1.2.0".data)]) = true := by
  decide

/-- C6 (amended): when the patched content equals the original, no commit
is made and no pull request is opened; with an empty candidate list
nothing at all is done (but with a non-empty list the branch has already
been created before the comparison). -/
theorem noop_content_no_commit_no_pr (jp : Str → Option Json) (jd : Json → Str)
    (orig : Str) (dt : DepType) (updates : List (Str × Str × Str))
    (h : generate_new_dependency_file_content jp jd orig dt updates = orig) :
    hasCommit (create_github_pr_actions jp jd orig dt updates) = false ∧
    hasOpenPR (create_github_pr_actions jp jd orig dt updates) = false ∧
    (updates = [] → create_github_pr_actions jp jd orig dt updates = []) := by
  have ha := actions_unchanged jp jd orig dt updates h
  by_cases hu : updates = []
  · rw [ha, if_pos hu]
    exact ⟨rfl, rfl, fun _ => rfl⟩
  · rw [ha, if_neg hu]
    exact ⟨rfl, rfl, fun hc => absurd hc hu⟩

/-- Witness for C6's amended theorem at a concrete unchanged patch. -/
theorem noop_content_no_commit_no_pr_witness :
    hasCommit (create_github_pr_actions jparse jdumps ("foo==1.2.0".data) .pip
      [("foo".data, "1.2.0".data, "1.2.0".data)]) = false ∧
    hasOpenPR (create_github_pr_actions jparse jdumps ("foo==1.2.0".data) .pip
      [("foo".data, "1.2.0".data, "1.2.0".data)]) = false ∧
    ([("foo".data, "1.2.0".data, "1.2.0".data)] = [] →
      create_github_pr_actions jparse jdumps ("foo==1.2.0".data) .pip
        [("foo".data, "1.2.0".data, "1.2.0".data)] = []) :=
  noop_content_no_commit_no_pr jparse jdumps ("foo==1.2.0".data) .pip
    [("foo".data, "1.2.0".data, "1.2.0".data)] (by decide)

/-- Counterexample for C8: a manifest with a trailing newline patched
with a candidate whose target equals the pinned version does NOT
round-trip (`"\n".join(splitlines())` drops the trailing newline), so the
pipeline commits and opens a pull request instead of ending as a no-op. -/
theorem equal_target_patch_not_noop_cex :
    generate_new_dependency_file_content jparse jdumps ("foo==1.2.0\n".data) .pip
      [("foo".data, "1.2.0".data, "1.2.0".data)] = "foo==1.2.0".data ∧
    ("foo==1.2.0".data : Str) ≠ "foo==1.2.0\n".data ∧
    hasOpenPR (create_github_pr_actions jparse jdumps ("foo==1.2.0\n".data) .pip
      [("foo".data, "1.2.0".data, "1.2.0".data)]) = true := by
  decide

/-- C8 (amended): patching with an empty candidate list is the identity;
and when the manifest round-trips through the line splitter (no trailing
newline) and every candidate-matched line is already in canonical
`name==latest` form, equal-target patching returns the original content
and the pipeline makes no commit and opens no pull request. -/
theorem empty_and_canonical_equal_target_noop (jp : Str → Option Json)
    (jd : Json → Str) (orig : Str) (dt : DepType)
    (updates : List (Str × Str × Str))
    (hjoin : orig = joinNl (splitLines orig))
    (hcanon : (splitLines orig).all (canonicalFor updates) = true) :
    generate_new_dependency_file_content jp jd orig dt [] = orig ∧
    generate_new_dependency_file_content jp jd orig .pip updates = orig ∧
    hasCommit (create_github_pr_actions jp jd orig .pip updates) = false ∧
    hasOpenPR (create_github_pr_actions jp jd orig .pip updates) = false := by
  have hEmpty : generate_new_dependency_file_content jp jd orig dt [] = orig := by
    unfold generate_new_dependency_file_content; simp
  have hrw : ∀ l ∈ splitLines orig, rewriteLine updates l = l := by
    intro l hl
    exact rewriteLine_fixed updates l (by
      rw [List.all_eq_true] at hcanon; exact hcanon l hl)
  have hGen : generate_new_dependency_file_content jp jd orig .pip updates = orig := by
    by_cases hu : updates = []
    · unfold generate_new_dependency_file_content; simp [hu]
    · unfold generate_new_dependency_file_content
      rw [if_neg hu]
      simp only []
      rw [listMapSelf _ _ hrw, ← hjoin]
  refine ⟨hEmpty, hGen, ?_, ?_⟩ <;> rw [actions_unchanged _ _ _ _ _ hGen] <;>
    by_cases hu : updates = [] <;> simp [hu, hasCommit, hasOpenPR]

/-- Witness for C8's amended theorem: a newline-free canonical manifest
with an equal-target candidate. -/
theorem empty_and_canonical_equal_target_noop_witness :
    generate_new_dependency_file_content jparse jdumps
      ("foo==1.2.0\n# comment\nbar>=2.0".data) .pip [] =
      "foo==1.2.0\n# comment\nbar>=2.0".data ∧
    generate_new_dependency_file_content jparse jdumps
      ("foo==1.2.0\n# comment\nbar>=2.0".data) .pip
      [("foo".data, "1.2.0".data, "1.2.0".data)] =
      "foo==1.2.0\n# comment\nbar>=2.0".data ∧
    hasCommit (create_github_pr_actions jparse jdumps
      ("foo==1.2.0\n# comment\nbar>=2.0".data) .pip
      [("foo".data, "1.2.0".data, "1.2.0".data)]) = false ∧
    hasOpenPR (create_github_pr_actions jparse jdumps
      ("foo==1.2.0\n# comment\nbar>=2.0".data) .pip
      [("foo".data, "1.2.0".data, "1.2.0".data)]) = false :=
  empty_and_canonical_equal_target_noop jparse jdumps
    ("foo==1.2.0\n# comment\nbar>=2.0".data) .pip
    [("foo".data, "1.2.0".data, "1.2.0".data)] (by decide) (by decide)

/-- Counterexample for C7: on the end-to-end scenario the candidate list
does contain both `foo` and `bar`, but the patched content is NOT the
claimed `"foo==1.2.0\n# comment\nbar>=2.0\n"`: the full candidate list is
handed to the patcher, which rewrites the unpinned `bar` line to
`bar==2.5.0`, and the line join drops the trailing newline. -/
theorem scenario1_patched_content_cex :
    (let plan := planUpdates
        (fun n => if n = "foo".data then some ("1.2.0".data)
          else if n = "bar".data then some ("2.5.0".data) else none)
        (fun _ => none)
        (parsePipManifest ("foo==1.0.0\n# comment\nbar>=2.0\n".data)) .pip
     plan = [("foo".data, "1.0.0".data, "1.2.0".data),
             ("bar".data, ">=2.0".data, "2.5.0".data)] ∧
     generate_new_dependency_file_content jparse jdumps
        ("foo==1.0.0\n# comment\nbar>=2.0\n".data) .pip plan ≠
        "foo==1.2.0\n# comment\nbar>=2.0\n".data) := by
  decide

/-- C7 (amended): in the end-to-end scenario the candidates
`("foo","1.0.0","1.2.0")` and `("bar",">=2.0","2.5.0")` are both emitted,
and the patched content is `"foo==1.2.0\n# comment\nbar==2.5.0"` — the
`bar` line is rewritten (its package is in the candidate list passed to
the patcher) and the trailing newline is dropped by the join. -/
theorem scenario1_candidates_and_patch :
    (let plan := planUpdates
        (fun n => if n = "foo".data then some ("1.2.0".data)
          else if n = "bar".data then some ("2.5.0".data) else none)
        (fun _ => none)
        (parsePipManifest ("foo==1.0.0\n# comment\nbar>=2.0\n".data)) .pip
     ("foo".data, "1.0.0".data, "1.2.0".data) ∈ plan ∧
     ("bar".data, ">=2.0".data, "2.5.0".data) ∈ plan ∧
     generate_new_dependency_file_content jparse jdumps
        ("foo==1.0.0\n# comment\nbar>=2.0\n".data) .pip plan =
        "foo==1.2.0\n# comment\nbar==2.5.0".data) := by
  decide

/-- C3 (code bug): because of the `@lru_cache` decorator on
`get_latest_version`, a second call for the same package returns the
memoized first result without running the body.  Concretely: a failed
lookup IS effectively cached (the retry returns `None` without touching
the network even though the registry now has the version), and a call
after the TTL has expired does NOT perform a fresh HTTP lookup. -/
theorem lru_cache_blocks_retry_and_ttl :
    (let st0 : RegistryState := ⟨[], []⟩
     let r1 := get_latest_version st0 ("requests".data) 0 none
     let r2 := get_latest_version r1.2.1 ("requests".data) 10 (some ("2.32.0".data))
     let s1 := get_latest_version st0 ("flask".data) 0 (some ("1.0.0".data))
     let s2 := get_latest_version s1.2.1 ("flask".data) 4000 (some ("2.0.0".data))
     r1.1 = none ∧ r1.2.2 = true ∧
     r2.1 = none ∧ r2.2.2 = false ∧
     0 + 4000 ≥ CACHE_EXPIRY ∧
     s2.1 = some ("1.0.0".data) ∧ s2.2.2 = false) := by
  decide

end Dependabot
